import Mathlib

/-!
Verification of the specification/filter composition mechanism of
`src/OpenClosedPrinciple/OpenClosed.cpp`: products with a color and a
size, leaf predicates (`ColorSpecification`, `SizeSpecification`), the
conjunction combinator (`AndSpecification`, also reachable through the
two `operator&&` overloads), the loop-based `BetterFilter::filter`, and
the hand-written `ProductFilter` methods.
-/

namespace OpenClosed

/-- The `Color` enum of the source (`enum class Color`). -/
inductive Color where
  | red
  | green
  | blue
deriving DecidableEq

/-- The `Size` enum of the source (`enum class Size`). -/
inductive Size where
  | small
  | medium
  | large
deriving DecidableEq

/-- The `Product` struct of the source: a name, a color and a size. -/
structure Product where
  name : String
  color : Color
  size : Size
deriving DecidableEq

/-- The closed set of `Specification<Product>` variants actually present in
the source: `ColorSpecification`, `SizeSpecification` and
`AndSpecification<Product>` (which stores its two operand specifications). -/
inductive Specification where
  | colorSpec (color : Color)
  | sizeSpec (size : Size)
  | andSpec (first second : Specification)
deriving DecidableEq

/-- `is_satisfied`, dispatched over the variants:
`ColorSpecification::is_satisfied` returns `item->color == color`,
`SizeSpecification::is_satisfied` returns `item->size == size`, and
`AndSpecification::is_satisfied` returns
`first.is_satisfied(item) && second.is_satisfied(item)`. -/
def is_satisfied : Specification → Product → Bool
  | .colorSpec color, item => item.color == color
  | .sizeSpec size, item => item.size == size
  | .andSpec first second, item =>
      is_satisfied first item && is_satisfied second item

/-- `BetterFilter::filter`: starts from an empty `result`, walks `items` in
order and appends (`push_back`) every item satisfying `spec`. -/
def BetterFilter.filter (items : List Product) (spec : Specification) :
    List Product :=
  items.foldl
    (fun result item =>
      if is_satisfied spec item then result ++ [item] else result)
    []

/-- The member `Specification::operator&&`, which builds
`AndSpecification<T>(*this, other)`. -/
def Specification.opAndMember (self other : Specification) : Specification :=
  .andSpec self other

/-- The free `operator&&(Specification<T> &first, Specification<T> &second)`,
which builds `AndSpecification` from `first` and `second` (`return {first, second};`). -/
def opAndFree (first second : Specification) : Specification :=
  .andSpec first second

/-- `ProductFilter::by_color`: pushes every item whose `color` matches. -/
def ProductFilter.by_color (items : List Product) (color : Color) :
    List Product :=
  items.foldl
    (fun result i => if i.color == color then result ++ [i] else result)
    []

/-- `ProductFilter::by_size`: pushes every item whose `size` matches. -/
def ProductFilter.by_size (items : List Product) (size : Size) :
    List Product :=
  items.foldl
    (fun result i => if i.size == size then result ++ [i] else result)
    []

/-- `ProductFilter::by_size_and_color`: pushes every item with
`i->size == size && i->color == color`. -/
def ProductFilter.by_size_and_color (items : List Product) (color : Color)
    (size : Size) : List Product :=
  items.foldl
    (fun result i =>
      if i.size == size && i.color == color then result ++ [i] else result)
    []

/-- The three products built in `main`. -/
def apple : Product := { name := "Apple", color := .green, size := .small }

/-- The `Tree` product of `main`. -/
def tree : Product := { name := "Tree", color := .green, size := .large }

/-- The `House` product of `main`. -/
def house : Product := { name := "House", color := .blue, size := .large }

/-- The `items` vector of `main`. -/
def mainItems : List Product := [apple, tree, house]

/-- The state of the `BetterFilter::filter` call frame: the `items`
argument, the `spec` reference and the `result` vector being built. -/
structure FilterState where
  items : List Product
  spec : Specification
  result : List Product
deriving DecidableEq

/-- One iteration of the loop body of `BetterFilter::filter`: only
`result` is ever written; `items` and `spec` are just read. -/
def filterStep (s : FilterState) (item : Product) : FilterState :=
  if is_satisfied s.spec item then { s with result := s.result ++ [item] }
  else s

/-- Running `BetterFilter::filter` as a state transformer: fold the loop
body over the items, starting from an empty `result`. -/
def filterRun (items : List Product) (spec : Specification) : FilterState :=
  items.foldl filterStep { items := items, spec := spec, result := [] }

/-- Evaluation instrumented with the post-state of the predicate and of
the item: each `is_satisfied` body only reads `item`'s field and the
specification's stored parameter (or delegates to the two operands in
order), and contains no assignment, so the embedding returns the inputs
as the post-state. -/
def evalSt : Specification → Product → Bool × Specification × Product
  | .colorSpec color, item => (item.color == color, .colorSpec color, item)
  | .sizeSpec size, item => (item.size == size, .sizeSpec size, item)
  | .andSpec first second, item =>
      let r1 := evalSt first item
      let r2 := evalSt second r1.2.2
      (r1.1 && r2.1, .andSpec r1.2.1 r2.2.1, r2.2.2)

/-- Evaluation through the `T *item` pointer: dereferencing a null item is
the only conceivable error branch, modelled as `none`; every variant
otherwise just reads fields and returns a boolean. -/
def evalDeref : Specification → Option Product → Option Bool
  | .colorSpec color, item => item.map (fun p => p.color == color)
  | .sizeSpec size, item => item.map (fun p => p.size == size)
  | .andSpec first second, item => do
      let b1 ← evalDeref first item
      let b2 ← evalDeref second item
      pure (b1 && b2)

/-! ### Helper lemmas -/

/-- The `push_back` loop over any accumulator is `List.filter` appended to
the accumulator. -/
theorem foldl_push_eq_filter (p : Product → Bool) (items acc : List Product) :
    items.foldl (fun result i => if p i then result ++ [i] else result) acc
      = acc ++ items.filter p := by
  induction items generalizing acc with
  | nil => simp
  | cons hd tl ih =>
      by_cases h : p hd
      · simp [List.foldl_cons, List.filter_cons, h, ih]
      · simp [List.foldl_cons, List.filter_cons, h, ih]

/-- `BetterFilter::filter` computes `List.filter` of `is_satisfied`. -/
theorem betterFilter_eq_listFilter (items : List Product)
    (spec : Specification) :
    BetterFilter.filter items spec
      = items.filter (fun x => is_satisfied spec x) := by
  simpa using foldl_push_eq_filter (fun x => is_satisfied spec x) items []

/-- `ProductFilter::by_color` is `List.filter` on the color test. -/
theorem by_color_eq (items : List Product) (c : Color) :
    ProductFilter.by_color items c = items.filter (fun i => i.color == c) := by
  simpa [ProductFilter.by_color] using
    foldl_push_eq_filter (fun i => i.color == c) items []

/-- `ProductFilter::by_size` is `List.filter` on the size test. -/
theorem by_size_eq (items : List Product) (s : Size) :
    ProductFilter.by_size items s = items.filter (fun i => i.size == s) := by
  simpa [ProductFilter.by_size] using
    foldl_push_eq_filter (fun i => i.size == s) items []

/-- `ProductFilter::by_size_and_color` is `List.filter` on the combined test. -/
theorem by_size_and_color_eq (items : List Product) (c : Color) (s : Size) :
    ProductFilter.by_size_and_color items c s
      = items.filter (fun i => i.size == s && i.color == c) := by
  simpa [ProductFilter.by_size_and_color] using
    foldl_push_eq_filter (fun i => i.size == s && i.color == c) items []

/-- Shared purity lemma: instrumented evaluation returns the plain
boolean and leaves the specification and the item unchanged. -/
theorem evalSt_eq (spec : Specification) (x : Product) :
    evalSt spec x = (is_satisfied spec x, spec, x) := by
  induction spec with
  | colorSpec c => rfl
  | sizeSpec s => rfl
  | andSpec f s ih1 ih2 => simp [evalSt, is_satisfied, ih1, ih2]

/-- Shared loop-frame lemma: folding the loop body never touches the
`items` and `spec` components, and accumulates the filtered items. -/
theorem filterStep_foldl (l : List Product) (s : FilterState) :
    l.foldl filterStep s
      = { items := s.items, spec := s.spec,
          result := s.result ++ l.filter (fun x => is_satisfied s.spec x) } := by
  induction l generalizing s with
  | nil => simp
  | cons hd tl ih =>
      by_cases h : is_satisfied s.spec hd
      · simp [List.foldl_cons, filterStep, h, ih, List.filter_cons]
      · simp [List.foldl_cons, filterStep, h, ih, List.filter_cons]

/-! ### Claims -/

/-- Claim C1: for every item x and predicates P and Q, the conjunction
predicate evaluates on x to the logical AND of P's and Q's evaluations:
`AndSpecification(P,Q).is_satisfied(x) == P.is_satisfied(x) && Q.is_satisfied(x)`. -/
theorem andSpec_is_satisfied_and (P Q : Specification) (x : Product) :
    is_satisfied (.andSpec P Q) x = (is_satisfied P x && is_satisfied Q x) :=
  rfl

/-- Claim C2: `BetterFilter::filter` returns exactly the subsequence of
items satisfying the predicate, preserving their relative input order
(it equals `List.filter` and is a sublist of the input). -/
theorem filter_stable (items : List Product) (spec : Specification) :
    BetterFilter.filter items spec
        = items.filter (fun x => is_satisfied spec x) ∧
    List.Sublist (BetterFilter.filter items spec) items := by
  refine ⟨betterFilter_eq_listFilter items spec, ?_⟩
  rw [betterFilter_eq_listFilter]
  exact List.filter_sublist items

/-- Claim C3: on `main`'s items [Apple(green,small), Tree(green,large),
House(blue,large)], filtering by color==green yields [Apple, Tree],
by green AND large yields [Tree], and by blue AND large yields [House]. -/
theorem main_scenario :
    BetterFilter.filter mainItems (.colorSpec .green) = [apple, tree] ∧
    BetterFilter.filter mainItems
        (.andSpec (.colorSpec .green) (.sizeSpec .large)) = [tree] ∧
    BetterFilter.filter mainItems
        (.andSpec (.colorSpec .blue) (.sizeSpec .large)) = [house] := by
  refine ⟨?_, ?_, ?_⟩ <;> rfl

/-- Claim C4: conjunction composition is associative pointwise, and
consequently filtering with either nesting yields the same result. -/
theorem andSpec_assoc (P Q R : Specification) (x : Product)
    (items : List Product) :
    is_satisfied (.andSpec (.andSpec P Q) R) x
        = is_satisfied (.andSpec P (.andSpec Q R)) x ∧
    BetterFilter.filter items (.andSpec (.andSpec P Q) R)
        = BetterFilter.filter items (.andSpec P (.andSpec Q R)) := by
  constructor
  · simp [is_satisfied, Bool.and_assoc]
  · rw [betterFilter_eq_listFilter, betterFilter_eq_listFilter]
    refine List.filter_congr ?_
    intro a _
    simp [is_satisfied, Bool.and_assoc]

/-- Claim C5: degenerate filter cases — empty input yields empty output;
a predicate true on every input item yields the full sequence unchanged;
a predicate false on every input item yields the empty sequence. -/
theorem filter_degenerate (items : List Product) (spec : Specification) :
    BetterFilter.filter [] spec = [] ∧
    ((∀ x ∈ items, is_satisfied spec x = true)
        → BetterFilter.filter items spec = items) ∧
    ((∀ x ∈ items, is_satisfied spec x = false)
        → BetterFilter.filter items spec = []) := by
  refine ⟨rfl, ?_, ?_⟩
  · intro h
    rw [betterFilter_eq_listFilter]
    exact List.filter_eq_self.mpr h
  · intro h
    rw [betterFilter_eq_listFilter]
    simp only [List.filter_eq_nil_iff]
    intro a ha
    simp [h a ha]

/-- Witness for C5: the always-true and always-false cases at a concrete
green-only input with the green and the blue color predicates. -/
theorem filter_degenerate_witness :
    BetterFilter.filter [apple, tree] (.colorSpec .green) = [apple, tree] ∧
    BetterFilter.filter [apple, tree] (.colorSpec .blue) = [] :=
  ⟨(filter_degenerate [apple, tree] (.colorSpec .green)).2.1 (by decide),
   (filter_degenerate [apple, tree] (.colorSpec .blue)).2.2 (by decide)⟩

/-- Claim C6: the member `operator&&` and the free `operator&&` have the
same semantics as directly constructing `AndSpecification(P,Q)`. -/
theorem opAnd_paths_agree (P Q : Specification) (x : Product) :
    is_satisfied (Specification.opAndMember P Q) x
        = is_satisfied (.andSpec P Q) x ∧
    is_satisfied (opAndFree P Q) x = is_satisfied (.andSpec P Q) x :=
  ⟨rfl, rfl⟩

/-- Claim C7: running the filter loop never mutates the input collection
or the predicate — the final state keeps `items` and `spec` exactly as
supplied, and its `result` is the filter's return value. -/
theorem filter_no_mutation (items : List Product) (spec : Specification) :
    (filterRun items spec).items = items ∧
    (filterRun items spec).spec = spec ∧
    (filterRun items spec).result = BetterFilter.filter items spec := by
  rw [filterRun, filterStep_foldl, betterFilter_eq_listFilter]
  exact ⟨rfl, rfl, rfl⟩

/-- Claim C8: predicate evaluation is a pure, deterministic function of
the item and the predicate's construction parameters — it returns the
boolean while leaving the predicate and the item unchanged, and an
evaluation interleaved after any other evaluation returns the same
result on the same unchanged state. -/
theorem eval_pure (spec other : Specification) (x : Product) :
    evalSt spec x = (is_satisfied spec x, spec, x) ∧
    evalSt spec ((evalSt other x).2.2) = evalSt spec x ∧
    (evalSt other x).2.1 = other := by
  refine ⟨evalSt_eq spec x, ?_, ?_⟩
  · rw [evalSt_eq other x]
  · rw [evalSt_eq other x]

/-- Claim C9: evaluation is total on well-formed (non-null) items: for
every predicate and every item, dereferencing evaluation returns `some`
boolean and no error branch is reachable. -/
theorem eval_total (spec : Specification) (x : Product) :
    evalDeref spec (some x) = some (is_satisfied spec x) := by
  induction spec with
  | colorSpec c => rfl
  | sizeSpec s => rfl
  | andSpec f s ih1 ih2 => simp [evalDeref, is_satisfied, ih1, ih2]

/-- Claim C10: the hand-written `ProductFilter` methods coincide with the
specification-based filter for every input, color and size. -/
theorem productFilter_equiv (items : List Product) (c : Color) (s : Size) :
    ProductFilter.by_color items c
        = BetterFilter.filter items (.colorSpec c) ∧
    ProductFilter.by_size items s
        = BetterFilter.filter items (.sizeSpec s) ∧
    ProductFilter.by_size_and_color items c s
        = BetterFilter.filter items (.andSpec (.colorSpec c) (.sizeSpec s)) := by
  refine ⟨?_, ?_, ?_⟩
  · rw [by_color_eq, betterFilter_eq_listFilter]
    refine List.filter_congr ?_
    intro a _
    simp [is_satisfied]
  · rw [by_size_eq, betterFilter_eq_listFilter]
    refine List.filter_congr ?_
    intro a _
    simp [is_satisfied]
  · rw [by_size_and_color_eq, betterFilter_eq_listFilter]
    refine List.filter_congr ?_
    intro a _
    simp [is_satisfied, Bool.and_comm]

end OpenClosed
